import Mathlib

/-!
Verification development for the rally `task` command module
(`rally/cli/commands/task.py`): a shallow embedding of the
result-aggregation and reporting pipeline (the `report` merge loop and
its JUnit branch, the `detailed` per-iteration table builder and output
normalization, result-file loading, and the task-error formatting
helpers), together with theorems settling the specification claims.

Durations are represented as rationals (the Python code only copies
them around; no floating-point arithmetic is performed on any path
modelled here).  Python dicts that are used as string-keyed maps are
represented as association lists.
-/

/-- Entry of a scenario result's `sla` list: `{criterion, success, detail}`. -/
structure SlaEntry where
  criterion : String
  success : Bool
  detail : String
deriving Repr, DecidableEq

/-- Value of the `sla` field of a scenario result.  The JUnit branch of
`report` tests `isinstance(result["sla"], list)`; any non-list value is
never inspected further, so it is modelled by the contentless
constructor `other`. -/
inductive SlaField where
  | list (entries : List SlaEntry)
  | other
deriving Repr, DecidableEq

/-- Whether the `sla` field is a Python list (`isinstance(..., list)`). -/
def SlaField.isList : SlaField → Bool
  | .list _ => true
  | .other => false

/-- Entries of the `sla` field when it is a list, `[]` otherwise. -/
def SlaField.entriesD : SlaField → List SlaEntry
  | .list es => es
  | .other => []

/-- Scenario key `{name, pos, kw}` (the `kw` arguments are opaque to the
reporting pipeline and omitted). -/
structure TaskKey where
  name : String
  pos : Int
deriving Repr, DecidableEq

/-- Scenario result record as assembled by `report` / loaded from a
results file: the fields the reporting pipeline reads. -/
structure ScenarioResult where
  key : TaskKey
  sla : SlaField
  full_duration : Rat
  load_duration : Rat := 0
deriving Repr, DecidableEq

/-! ## JUnit branch of `report`

Embedding of lines 696-708 of `task.py`:

    test_suite = junit.JUnit("Rally test suite")
    for result in results:
        if isinstance(result["sla"], list):
            message = ",".join([sla["detail"] for sla in
                                result["sla"] if not sla["success"]])
        if message:
            outcome = junit.JUnit.FAILURE
        else:
            outcome = junit.JUnit.SUCCESS
        test_suite.add_test(result["key"]["name"],
                            result["full_duration"], outcome, message)

with `message = []` initialized at line 661, before the loop.  The
`junit` module itself is not part of the analysed source; a test suite
is modelled as the list of `add_test` calls. -/

/-- Outcome constant passed to `junit.JUnit.add_test`. -/
inductive Outcome where
  | success
  | failure
deriving Repr, DecidableEq

/-- Value of the Python variable `message` in the JUnit loop: either the
initial empty list `[]` from line 661 (never replaced as long as no
result with a list-valued `sla` has been seen) or a string produced by
`",".join(...)`. -/
inductive JMessage where
  | initial
  | str (s : String)
deriving Repr, DecidableEq

/-- Python truthiness of the `message` variable: the initial `[]` is
falsy, a string is truthy iff non-empty. -/
def JMessage.truthy : JMessage → Bool
  | .initial => false
  | .str s => s ≠ ""

/-- The string `",".join([sla["detail"] for sla in entries if not sla["success"]])`. -/
def junitMessage (entries : List SlaEntry) : String :=
  String.intercalate "," ((entries.filter (fun s => !s.success)).map SlaEntry.detail)

/-- Value of `message` after processing one result: recomputed when the
result's `sla` is a list, otherwise left unchanged. -/
def junitStep (message : JMessage) (r : ScenarioResult) : JMessage :=
  match r.sla with
  | .list es => .str (junitMessage es)
  | .other => message

/-- One `add_test` call recorded by the modelled test suite. -/
structure TestCase where
  name : String
  duration : Rat
  outcome : Outcome
  message : JMessage
deriving Repr, DecidableEq

/-- The JUnit loop with the `message` variable threaded through. -/
def junitTestsAux (message : JMessage) : List ScenarioResult → List TestCase
  | [] => []
  | r :: rs =>
    let m := junitStep message r
    { name := r.key.name,
      duration := r.full_duration,
      outcome := if m.truthy then .failure else .success,
      message := m } :: junitTestsAux m rs

/-- Test cases emitted by the JUnit branch of `report` for a merged
result sequence (the `message` variable starts as the empty list). -/
def junitTests (results : List ScenarioResult) : List TestCase :=
  junitTestsAux .initial results

/-- The message computed for the most recent result whose `sla` is a
list, or the initial empty value when no such result exists.  Used to
specify which message a result with a non-list `sla` reuses. -/
def recentListMsg : List ScenarioResult → JMessage
  | [] => .initial
  | r :: rs =>
    match recentListMsg rs with
    | .str s => .str s
    | .initial =>
      match r.sla with
      | .list es => .str (junitMessage es)
      | .other => .initial

/-! ## The `report` merge loop

Embedding of lines 684-691 of `task.py`:

    for task_result in tasks_results:
        if task_result["key"]["name"] in processed_names:
            processed_names[task_result["key"]["name"]] += 1
            task_result["key"]["pos"] = processed_names[
                task_result["key"]["name"]]
        else:
            processed_names[task_result["key"]["name"]] = 0
        results.append(task_result)

where `processed_names = {}` is a dict, modelled as an association
list. -/

/-- Dict membership / read: `processed_names[name]`. -/
def lookupName : List (String × Nat) → String → Option Nat
  | [], _ => none
  | p :: m, k => if p.1 = k then some p.2 else lookupName m k

/-- Dict write to an existing key: `processed_names[name] = v`. -/
def setName (m : List (String × Nat)) (k : String) (v : Nat) : List (String × Nat) :=
  m.map (fun p => if p.1 = k then (k, v) else p)

/-- Number of occurrences of earlier results with a given scenario name. -/
def countName (k : String) : List ScenarioResult → Nat
  | [] => 0
  | r :: rs => (if r.key.name = k then 1 else 0) + countName k rs

/-- Occurrence count encoded in the `processed_names` dict: the dict
stores `n` for a name whose `n + 1`-th occurrence has been processed. -/
def lookCount (m : List (String × Nat)) (k : String) : Nat :=
  match lookupName m k with
  | some n => n + 1
  | none => 0

/-- The `report` merge loop, threaded through `processed_names`. -/
def mergeResultsAux (processed : List (String × Nat)) :
    List ScenarioResult → List ScenarioResult
  | [] => []
  | tr :: rest =>
    match lookupName processed tr.key.name with
    | some n =>
      { tr with key := { tr.key with pos := Int.ofNat (n + 1) } }
        :: mergeResultsAux (setName processed tr.key.name (n + 1)) rest
    | none =>
      tr :: mergeResultsAux ((tr.key.name, 0) :: processed) rest

/-- Merged result sequence assembled by `report` (the dict starts empty). -/
def mergeResults (tasksResults : List ScenarioResult) : List ScenarioResult :=
  mergeResultsAux [] tasksResults

/-! ## Format dispatch of `report`

Embedding of lines 693-711: `if out_format.startswith("html"): ...
elif out_format == "junit": ... else: print("Invalid output format");
return 1`.  The HTML renderer (`plot.plot`) is external to the analysed
source; the artifact records which renderer was selected and its
inputs. -/

/-- Python `str.startswith`. -/
def strStartsWith (s p : String) : Bool :=
  p.data.isPrefixOf s.data

/-- Artifact produced by `report`: either the HTML renderer applied to
the merged results (with `include_libs = (out_format == "html_static")`)
or the JUnit test suite. -/
inductive ReportArtifact where
  | html (include_libs : Bool) (results : List ScenarioResult)
  | junitXml (tests : List TestCase)
deriving Repr, DecidableEq

/-- The `report` command body on already-loaded task results: merge,
then dispatch on `out_format`; an unknown format prints an error and
returns exit code 1. -/
def report (tasksResults : List ScenarioResult) (out_format : String) :
    Except Nat ReportArtifact :=
  let results := mergeResults tasksResults
  if strStartsWith out_format "html" then
    Except.ok (.html (out_format == "html_static") results)
  else if out_format == "junit" then
    Except.ok (.junitXml (junitTests results))
  else
    Except.error 1

/-! ## Loading a task results file

Embedding of `_load_task_results_file` (lines 557-575): each result of
the parsed JSON array is validated against `api.task.TASK_RESULT_SCHEMA`
(external to the analysed source, hence a parameter) and its raw
iterations' atomic actions are rewrapped (`WrapperForAtomicActions`,
also external, hence the `wrap` parameter); the first validation failure
raises `FailedToLoadResults(source=task_id, msg=...)`. -/

/-- The `FailedToLoadResults` exception payload. -/
structure FailedToLoadResults where
  source : String
  msg : String
deriving Repr, DecidableEq

/-- The validation loop of `_load_task_results_file`.  `validate r =
some msg` models `jsonschema.validate` raising a `ValidationError` with
message `msg`; `wrap` models the in-place atomic-actions rewrapping
applied to each valid result. -/
def loadTaskResultsFile {α : Type} (validate : α → Option String) (wrap : α → α)
    (source : String) : List α → Except FailedToLoadResults (List α)
  | [] => .ok []
  | r :: rs =>
    match validate r with
    | some msg => .error { source := source, msg := msg }
    | none => (loadTaskResultsFile validate wrap source rs).map (fun rest => wrap r :: rest)

/-! ## Per-iteration breakdown of `detailed`

Embedding of lines 352-424 of `task.py`.  The atomic merger
(`putils.AtomicMerger`) lives outside the analysed source: its merged
name list is taken as an input (`atomic_names`) and
`merge_atomic_actions` is a parameter `merge` producing a dict from
canonical name to duration, modelled as an association list. -/

/-- Entry of the normalized `additive` / `complete` output sequences. -/
structure OutputEntry where
  data : List (String × Rat)
  title : String
  description : String
  chart_plugin : String
deriving Repr, DecidableEq

/-- Current-schema iteration output `{additive, complete}`. -/
structure IterationOutput where
  additive : List OutputEntry := []
  complete : List OutputEntry := []
deriving Repr, DecidableEq

/-- Legacy `scenario_output` value; only its `data` member is read. -/
structure ScenarioOutput where
  data : List (String × Rat)
deriving Repr, DecidableEq

/-- Iteration record as read by `detailed`; `α` is the raw
`atomic_actions` payload consumed only by the external atomic merger.
Absent dict keys are modelled with `Option` / an empty list. -/
structure Iteration (α : Type) where
  duration : Rat
  atomic_actions : α
  output : Option IterationOutput := none
  scenario_output : Option ScenarioOutput := none
  error : List String := []
deriving Repr, DecidableEq

/-- Row of the "Atomics per iteration" table: the `iteration` and
`duration` cells plus one cell per action column (keyed by the column
label `"i. name"`). -/
structure IterRow where
  iteration : Nat
  duration : Rat
  values : List (String × Rat)
deriving Repr, DecidableEq

/-- The `iterations_actions` list built at lines 360-363:
`for i, atomic_name in enumerate(atomic_names, 1): ...
iterations_actions.append((atomic_name, "%i. %s" % (i, atomic_name)))`. -/
def iterationsActions (i : Nat) : List String → List (String × String)
  | [] => []
  | n :: ns => (n, toString i ++ ". " ++ n) :: iterationsActions (i + 1) ns

/-- One row of the per-iteration table (lines 368-373): for every
`(name, action)` column the cell is
`atomic_merger.merge_atomic_actions(itr["atomic_actions"]).get(name, 0)`. -/
def buildIterRow {α : Type} (merge : α → List (String × Rat))
    (actions : List (String × String)) (idx : Nat) (itr : Iteration α) : IterRow :=
  { iteration := idx,
    duration := itr.duration,
    values := actions.map (fun na => (na.2, ((merge itr.atomic_actions).lookup na.1).getD 0)) }

/-- The row-building loop `for idx, itr in enumerate(result["iterations"], 1)`
restricted to its `iterations.append(row)` effect. -/
def buildIterationRowsAux {α : Type} (merge : α → List (String × Rat))
    (actions : List (String × String)) (idx : Nat) :
    List (Iteration α) → List IterRow
  | [] => []
  | itr :: rest =>
    buildIterRow merge actions idx itr :: buildIterationRowsAux merge actions (idx + 1) rest

/-- The per-iteration table rows, in the order they are appended
(`enumerate` starts the labels at 1). -/
def buildIterationRows {α : Type} (merge : α → List (String × Rat))
    (actions : List (String × String)) (iterations : List (Iteration α)) : List IterRow :=
  buildIterationRowsAux merge actions 1 iterations

/-- Output normalization at lines 376-389: an iteration with an
`output` key passes through; otherwise the output becomes
`{additive: [], complete: []}`, with a single synthesized additive entry
when a legacy `scenario_output` with truthy (non-empty) `data` is
present. -/
def normalizeOutput {α : Type} (itr : Iteration α) : IterationOutput :=
  match itr.output with
  | some o => o
  | none =>
    match itr.scenario_output with
    | some so =>
      if so.data ≠ [] then
        { additive := [{ data := so.data, title := "Scenario output",
                         description := "", chart_plugin := "StackedArea" }],
          complete := [] }
      else { additive := [], complete := [] }
    | none => { additive := [], complete := [] }

/-! ## Task error formatting and printing

Embedding of `_format_task_error` (lines 859-872) and
`_print_task_errors` (lines 851-857).  The `try`/`except IndexError`
sequence of `data["error"][0]`, `[1]`, `[2]` leaves the default in every
component from the first missing index on; since list indexing fails
monotonically this is exactly a per-index lookup with default.
`cliutils.make_header` (external) only decorates its argument and is
modelled as the undecorated text; printed output is modelled as the list
of printed strings. -/

/-- `_format_task_error`: `("%(error_type)s: %(error_message)s\n" % ...,
error_traceback)` with the placeholder defaults for missing
components. -/
def formatTaskError (error : List String) : String × String :=
  (error.getD 0 "Unknown type" ++ ": " ++
     error.getD 1 "Rally hasn't caught anything yet" ++ "\n",
   error.getD 2 "No traceback available.")

/-- Claimed behaviour of `_format_task_error` on error sequences with
fewer than three elements, written from the claim's words (components
present used in order, fixed placeholder defaults for the missing
ones); to be compared with `formatTaskError` as embedded from the
source. -/
def formatTaskErrorSpec : List String → String × String
  | [] => ("Unknown type: Rally hasn't caught anything yet\n", "No traceback available.")
  | [t] => (t ++ ": Rally hasn't caught anything yet\n", "No traceback available.")
  | t :: m :: _ => (t ++ ": " ++ m ++ "\n", "No traceback available.")

/-- The `"-" * 80` separator line. -/
def dashLine : String :=
  String.mk (List.replicate 80 '-')

/-- The strings printed by `_print_task_errors`: the header, then for
every error tuple its `type: message` component, its traceback, and a
separator (`print(*err_data, sep="\n")` prints both tuple components). -/
def printTaskErrors (task_id : String) (task_errors : List (String × String)) : List String :=
  ("Task " ++ task_id ++ " has " ++ toString task_errors.length ++ " error(s)")
    :: task_errors.foldr (fun e acc => e.1 :: e.2 :: dashLine :: acc) []

/-! ## Concrete sample inputs used by witnesses and counterexamples -/

/-- Scenario result whose only SLA entry failed with an empty `detail`. -/
def slaEmptyDetailResult : ScenarioResult :=
  { key := { name := "boot_server", pos := 0 },
    sla := .list [{ criterion := "max_seconds", success := false, detail := "" }],
    full_duration := 1 }

/-- Scenario result with one failed SLA entry carrying a non-empty detail. -/
def slaFailedResult : ScenarioResult :=
  { key := { name := "boot_server", pos := 0 },
    sla := .list [{ criterion := "max_seconds", success := false, detail := "too slow" }],
    full_duration := 3 }

/-- Scenario result whose SLA entries all succeeded. -/
def slaPassedResult : ScenarioResult :=
  { key := { name := "list_servers", pos := 0 },
    sla := .list [{ criterion := "max_seconds", success := true, detail := "ok" }],
    full_duration := 2 }

/-- Scenario result whose `sla` field is not a list. -/
def slaNonListResult : ScenarioResult :=
  { key := { name := "ping_server", pos := 0 }, sla := .other, full_duration := 4 }

/-- Scenario result named `"boot_server"` with `pos = 0`, for the
collision-disambiguation example. -/
def bootServerResult : ScenarioResult :=
  { key := { name := "boot_server", pos := 0 }, sla := .list [], full_duration := 1 }

/-- Iteration lacking an `output` key but carrying a legacy
`scenario_output` with non-empty data. -/
def legacyOutputIteration : Iteration Unit :=
  { duration := 2, atomic_actions := (),
    scenario_output := some { data := [("errors_count", 0)] } }

theorem junitTestsAux_length (message : JMessage) (rs : List ScenarioResult) :
    (junitTestsAux message rs).length = rs.length := by
  induction rs generalizing message with
  | nil => rfl
  | cons r rs ih => simp [junitTestsAux, ih]

theorem junitTestsAux_append (message : JMessage) (xs ys : List ScenarioResult) :
    junitTestsAux message (xs ++ ys) =
      junitTestsAux message xs ++ junitTestsAux (xs.foldl junitStep message) ys := by
  induction xs generalizing message with
  | nil => rfl
  | cons x xs ih => simp [junitTestsAux, ih]

theorem foldl_junitStep_eq_recentListMsg (rs : List ScenarioResult) (message : JMessage) :
    rs.foldl junitStep message =
      match recentListMsg rs with
      | .str s => .str s
      | .initial => message := by
  induction rs generalizing message with
  | nil => rfl
  | cons r rs ih =>
    rw [List.foldl_cons, ih]
    cases h : recentListMsg rs with
    | str s => simp [recentListMsg, h]
    | initial =>
      simp only [recentListMsg, h, junitStep]
      cases r.sla <;> rfl

theorem match_jmessage_id (j : JMessage) :
    (match j with | .str s => JMessage.str s | .initial => JMessage.initial) = j := by
  cases j <;> rfl

theorem foldl_junitStep_initial (rs : List ScenarioResult) :
    rs.foldl junitStep .initial = recentListMsg rs := by
  rw [foldl_junitStep_eq_recentListMsg]
  exact match_jmessage_id _

theorem junitTestsAux_all_list (message : JMessage) (rs : List ScenarioResult)
    (h : ∀ r ∈ rs, r.sla.isList = true) :
    junitTestsAux message rs = rs.map (fun r =>
      { name := r.key.name,
        duration := r.full_duration,
        outcome := if junitMessage r.sla.entriesD = "" then Outcome.success else Outcome.failure,
        message := JMessage.str (junitMessage r.sla.entriesD) }) := by
  induction rs generalizing message with
  | nil => rfl
  | cons r rs ih =>
    have hr : r.sla.isList = true := h r (List.mem_cons_self r rs)
    obtain ⟨es, hes⟩ : ∃ es, r.sla = SlaField.list es := by
      cases hsla : r.sla with
      | list es => exact ⟨es, rfl⟩
      | other => rw [hsla] at hr; exact absurd hr (by simp [SlaField.isList])
    have htail : ∀ x ∈ rs, x.sla.isList = true := fun x hx => h x (List.mem_cons_of_mem r hx)
    simp only [junitTestsAux, List.map_cons]
    rw [ih _ htail]
    have hstep : junitStep message r = JMessage.str (junitMessage es) := by
      simp [junitStep, hes]
    rw [hstep]
    have hout : (if (JMessage.str (junitMessage es)).truthy
          then Outcome.failure else Outcome.success) =
        (if junitMessage r.sla.entriesD = "" then Outcome.success else Outcome.failure) := by
      by_cases hc : junitMessage es = "" <;>
        simp [JMessage.truthy, hes, SlaField.entriesD, hc]
    simp [hes, SlaField.entriesD, hout]

theorem lookupName_setName_self (m : List (String × Nat)) (k : String) (v : Nat)
    (h : (lookupName m k).isSome) :
    lookupName (setName m k v) k = some v := by
  induction m with
  | nil => simp [lookupName] at h
  | cons p m ih =>
    by_cases hp : p.1 = k
    · simp [setName, lookupName, hp]
    · simp only [setName, List.map_cons, if_neg hp]
      rw [lookupName, if_neg hp]
      rw [lookupName, if_neg hp] at h
      exact ih h

theorem lookupName_setName_other (m : List (String × Nat)) (k k' : String) (v : Nat)
    (h : k' ≠ k) :
    lookupName (setName m k v) k' = lookupName m k' := by
  induction m with
  | nil => rfl
  | cons p m ih =>
    by_cases hp : p.1 = k
    · simp only [setName, List.map_cons, if_pos hp]
      rw [lookupName, if_neg (fun hk => h hk.symm), lookupName, hp, if_neg (fun hk => h hk.symm)]
      exact ih
    · simp only [setName, List.map_cons, if_neg hp]
      rw [lookupName, lookupName]
      by_cases hp' : p.1 = k'
      · simp [hp']
      · rw [if_neg hp', if_neg hp']
        exact ih

theorem lookCount_eq_some (m : List (String × Nat)) (k : String) (n : Nat)
    (h : lookupName m k = some n) : lookCount m k = n + 1 := by
  unfold lookCount; rw [h]

theorem lookCount_eq_none (m : List (String × Nat)) (k : String)
    (h : lookupName m k = none) : lookCount m k = 0 := by
  unfold lookCount; rw [h]

theorem lookCount_setName (m : List (String × Nat)) (k k' : String) (n : Nat)
    (h : lookupName m k = some n) :
    lookCount (setName m k (n + 1)) k' =
      lookCount m k' + (if k = k' then 1 else 0) := by
  by_cases hk : k' = k
  · subst hk
    rw [lookCount_eq_some _ _ _ (lookupName_setName_self m k' (n + 1) (by rw [h]; rfl)),
      lookCount_eq_some _ _ _ h, if_pos rfl]
  · unfold lookCount
    rw [lookupName_setName_other m k k' (n + 1) hk, if_neg (Ne.symm hk)]
    simp

theorem lookCount_cons_zero (m : List (String × Nat)) (k k' : String)
    (h : lookupName m k = none) :
    lookCount ((k, 0) :: m) k' = lookCount m k' + (if k = k' then 1 else 0) := by
  by_cases hk : k = k'
  · subst hk
    rw [lookCount_eq_some ((k, 0) :: m) k 0 (by rw [lookupName]; exact if_pos rfl),
      lookCount_eq_none _ _ h, if_pos rfl]
  · rw [if_neg hk, Nat.add_zero]
    have hcons : lookupName ((k, 0) :: m) k' = lookupName m k' := by
      rw [lookupName]; exact if_neg hk
    cases hl' : lookupName m k' with
    | some n => rw [lookCount_eq_some _ _ _ (hcons.trans hl'), lookCount_eq_some _ _ _ hl']
    | none => rw [lookCount_eq_none _ _ (hcons.trans hl'), lookCount_eq_none _ _ hl']

theorem mergeResultsAux_length (processed : List (String × Nat)) (rs : List ScenarioResult) :
    (mergeResultsAux processed rs).length = rs.length := by
  induction rs generalizing processed with
  | nil => rfl
  | cons tr rest ih =>
    rw [mergeResultsAux]
    cases lookupName processed tr.key.name <;> simp [ih]

theorem mergeResultsAux_getElem (rs : List ScenarioResult) (processed : List (String × Nat))
    (i : Nat) :
    (mergeResultsAux processed rs)[i]? = (rs[i]?).map (fun r =>
      let c := lookCount processed r.key.name + countName r.key.name (rs.take i)
      if c = 0 then r
      else { r with key := { r.key with pos := Int.ofNat c } }) := by
  induction rs generalizing processed i with
  | nil => simp [mergeResultsAux]
  | cons tr rest ih =>
    rw [mergeResultsAux]
    cases hl : lookupName processed tr.key.name with
    | some n =>
      cases i with
      | zero =>
        simp only [List.getElem?_cons_zero, Option.map_some', List.take_zero, countName]
        rw [lookCount_eq_some _ _ _ hl]
        simp
      | succ j =>
        simp only [List.getElem?_cons_succ]
        rw [ih _ j]
        cases hr : rest[j]? with
        | none => rfl
        | some r =>
          simp only [Option.map_some', Option.some_inj]
          have hc : lookCount (setName processed tr.key.name (n + 1)) r.key.name +
              countName r.key.name (rest.take j) =
              lookCount processed r.key.name +
                countName r.key.name ((tr :: rest).take (j + 1)) := by
            rw [List.take_succ_cons, countName, lookCount_setName processed _ _ n hl]
            ring
          rw [hc]
    | none =>
      cases i with
      | zero =>
        simp only [List.getElem?_cons_zero, Option.map_some', List.take_zero, countName]
        rw [lookCount_eq_none _ _ hl]
        simp
      | succ j =>
        simp only [List.getElem?_cons_succ]
        rw [ih _ j]
        cases hr : rest[j]? with
        | none => rfl
        | some r =>
          simp only [Option.map_some', Option.some_inj]
          have hc : lookCount ((tr.key.name, 0) :: processed) r.key.name +
              countName r.key.name (rest.take j) =
              lookCount processed r.key.name +
                countName r.key.name ((tr :: rest).take (j + 1)) := by
            rw [List.take_succ_cons, countName, lookCount_cons_zero processed _ _ hl]
            ring
          rw [hc]

theorem getElem?_map_list {α β : Type} (f : α → β) (l : List α) (i : Nat) :
    (l.map f)[i]? = (l[i]?).map f := by
  induction l generalizing i with
  | nil => simp
  | cons a l ih => cases i <;> simp [ih]

theorem iterationsActions_getElem (ns : List String) (j i : Nat) :
    (iterationsActions j ns)[i]? =
      (ns[i]?).map (fun n => (n, toString (j + i) ++ ". " ++ n)) := by
  induction ns generalizing j i with
  | nil => simp [iterationsActions]
  | cons n ns ih =>
    cases i with
    | zero => simp [iterationsActions]
    | succ i =>
      rw [iterationsActions]
      simp only [List.getElem?_cons_succ]
      rw [ih (j + 1) i]
      have harith : j + 1 + i = j + (i + 1) := by omega
      rw [harith]

theorem buildIterationRowsAux_length {α : Type} (merge : α → List (String × Rat))
    (actions : List (String × String)) (j : Nat) (iterations : List (Iteration α)) :
    (buildIterationRowsAux merge actions j iterations).length = iterations.length := by
  induction iterations generalizing j with
  | nil => rfl
  | cons itr rest ih => simp [buildIterationRowsAux, ih]

theorem buildIterationRowsAux_getElem {α : Type} (merge : α → List (String × Rat))
    (actions : List (String × String)) (j : Nat) (iterations : List (Iteration α)) (i : Nat) :
    (buildIterationRowsAux merge actions j iterations)[i]? =
      (iterations[i]?).map (fun itr => buildIterRow merge actions (j + i) itr) := by
  induction iterations generalizing j i with
  | nil => simp [buildIterationRowsAux]
  | cons itr rest ih =>
    cases i with
    | zero => simp [buildIterationRowsAux]
    | succ i =>
      rw [buildIterationRowsAux]
      simp only [List.getElem?_cons_succ]
      rw [ih (j + 1) i]
      have harith : j + 1 + i = j + (i + 1) := by omega
      rw [harith]

theorem mem_errorChain (l : List (String × String)) (p : String × String) (hp : p ∈ l) :
    p.1 ∈ l.foldr (fun e acc => e.1 :: e.2 :: dashLine :: acc) [] ∧
    p.2 ∈ l.foldr (fun e acc => e.1 :: e.2 :: dashLine :: acc) [] := by
  induction l with
  | nil => cases hp
  | cons q l ih =>
    rw [List.foldr_cons]
    rcases List.mem_cons.mp hp with he | hm
    · subst he
      exact ⟨List.mem_cons_self _ _, List.mem_cons_of_mem _ (List.mem_cons_self _ _)⟩
    · obtain ⟨h1, h2⟩ := ih hm
      refine ⟨List.mem_cons_of_mem _ (List.mem_cons_of_mem _ (List.mem_cons_of_mem _ h1)),
        List.mem_cons_of_mem _ (List.mem_cons_of_mem _ (List.mem_cons_of_mem _ h2))⟩

/-- C1 counterexample.  The claim demands a FAILURE outcome whenever at
least one SLA entry has `success = false`; on `slaEmptyDetailResult`
(one failed entry whose `detail` is the empty string) the joined message
is `""`, which is falsy in Python, so the code emits SUCCESS instead. -/
theorem C1_empty_detail_counterexample :
    (slaEmptyDetailResult.sla.entriesD.any (fun e => !e.success)) = true ∧
    (junitTests [slaEmptyDetailResult]).map TestCase.outcome = [Outcome.success] := by
  constructor
  · decide
  · decide

/-- C1 (amended).  For every sequence of scenario results whose `sla`
fields are all lists, the JUnit branch of `report` emits exactly one
test case per result, named `key.name` with duration `full_duration`
and with message the comma-joined `detail` strings of the entries
having `success = false`; the outcome is FAILURE when that joined
string is non-empty and SUCCESS when it is empty (in particular SUCCESS
with empty message when every entry succeeded or the list is empty, but
also SUCCESS when the only failed entry has an empty detail). -/
theorem C1_junit_outcome (results : List ScenarioResult)
    (h : ∀ r ∈ results, r.sla.isList = true) :
    junitTests results = results.map (fun r =>
      { name := r.key.name,
        duration := r.full_duration,
        outcome := if junitMessage r.sla.entriesD = "" then Outcome.success
                   else Outcome.failure,
        message := JMessage.str (junitMessage r.sla.entriesD) }) :=
  junitTestsAux_all_list JMessage.initial results h

/-- C1 witness: the amended theorem applied to a concrete two-result
sequence (one failed SLA with non-empty detail, one fully passed). -/
theorem C1_junit_outcome_witness :
    (∀ r ∈ [slaFailedResult, slaPassedResult], r.sla.isList = true) ∧
    junitTests [slaFailedResult, slaPassedResult] =
      [{ name := "boot_server", duration := 3, outcome := Outcome.failure,
         message := JMessage.str "too slow" },
       { name := "list_servers", duration := 2, outcome := Outcome.success,
         message := JMessage.str "" }] :=
  ⟨by decide, (C1_junit_outcome [slaFailedResult, slaPassedResult] (by decide)).trans (by decide)⟩

/-- C2 counterexample.  `"htmlunknown"` is not one of the enumerated
renderer kinds, yet `report` does not return an error: because dispatch
tests `out_format.startswith("html")`, it silently falls back to the
HTML renderer (with `include_libs = False`). -/
theorem C2_html_fallback_counterexample :
    ("htmlunknown" ∉ ["table", "html", "html_static", "junit"]) ∧
    report [] "htmlunknown" = Except.ok (ReportArtifact.html false []) := by
  exact ⟨by decide, rfl⟩

/-- C2 (amended).  Every `out_format` string that does not start with
`"html"` and is not `"junit"` makes `report` print an invalid-format
message and return 1 without producing any artifact; strings starting
with `"html"` (not only `"html"` and `"html_static"`) however select
the HTML renderer, so unknown formats with that prefix do fall back
silently. -/
theorem C2_unknown_format (out_format : String) (tasksResults : List ScenarioResult)
    (h1 : strStartsWith out_format "html" = false) (h2 : out_format ≠ "junit") :
    report tasksResults out_format = Except.error 1 := by
  unfold report
  rw [if_neg (by rw [h1]; exact Bool.false_ne_true)]
  rw [if_neg (by simp [h2])]

/-- C2 witness: the format `"table"` (a renderer kind that exists only
as the separate `detailed` command, not in `report`) is rejected. -/
theorem C2_unknown_format_witness :
    report ([] : List ScenarioResult) "table" = Except.error 1 :=
  C2_unknown_format "table" [] (by decide) (by decide)

/-- C3.  The `report` merge keeps every result (length preserved) and
rewrites only `pos`: the `i`-th merged result equals the `i`-th input
result, except that when the same `key.name` already occurred `c ≥ 1`
times earlier in merge order the `pos` field is overwritten with `c`
(so later occurrences get 1, 2, 3, ...), while a first occurrence keeps
its original `pos`.  The final conjunct is the claim's example: merging
two results both named `"boot_server"` with `pos = 0` yields `pos`
values 0 and 1, both retained. -/
theorem C3_merge_collision (rs : List ScenarioResult) (i : Nat) :
    (mergeResults rs).length = rs.length ∧
    (mergeResults rs)[i]? = (rs[i]?).map (fun r =>
      let c := countName r.key.name (rs.take i)
      if c = 0 then r
      else { r with key := { r.key with pos := Int.ofNat c } }) ∧
    (mergeResults [bootServerResult, bootServerResult]).map (fun r => r.key.pos) = [0, 1] := by
  refine ⟨mergeResultsAux_length [] rs, ?_, by decide⟩
  rw [mergeResults, mergeResultsAux_getElem rs [] i]
  cases hr : rs[i]? with
  | none => rfl
  | some r =>
    simp only [Option.map_some', Option.some_inj]
    rw [lookCount_eq_none [] r.key.name rfl]
    simp

/-- C4.  If any result in an imported results file fails schema
validation, `_load_task_results_file` raises `FailedToLoadResults`
whose `source` is the input file, and no list of results is returned
(the `Except.error` value carries no results): validation failure is a
hard error, never a partial accept of the valid prefix. -/
theorem C4_load_validation_error {α : Type} (validate : α → Option String) (wrap : α → α)
    (source : String) (tasksResults : List α)
    (h : ∃ r ∈ tasksResults, (validate r).isSome) :
    ∃ msg, loadTaskResultsFile validate wrap source tasksResults =
      Except.error { source := source, msg := msg } := by
  induction tasksResults with
  | nil => obtain ⟨r, hr, _⟩ := h; cases hr
  | cons r rs ih =>
    cases hv : validate r with
    | some msg => exact ⟨msg, by rw [loadTaskResultsFile, hv]⟩
    | none =>
      obtain ⟨x, hx, hxv⟩ := h
      rcases List.mem_cons.mp hx with he | hm
      · subst he; rw [hv] at hxv; cases hxv
      · obtain ⟨msg, hmsg⟩ := ih ⟨x, hm, hxv⟩
        refine ⟨msg, ?_⟩
        rw [loadTaskResultsFile, hv, hmsg]
        rfl

/-- C4 witness: loading a three-element file whose second result fails
validation (a missing required `key` field) errors with the file as
source. -/
theorem C4_load_validation_error_witness :
    ∃ msg, loadTaskResultsFile
        (fun n => if n = 0 then some "key is a required property" else none)
        id "results.json" [1, 0, 2] =
      Except.error { source := "results.json", msg := msg } :=
  C4_load_validation_error _ id "results.json" [1, 0, 2] ⟨0, by decide, by decide⟩

/-- C5.  In the per-iteration breakdown of `detailed` with
`iterations_data` enabled, the cell for the `i`-th canonical atomic
name (column label `"i+1. name"`) holds the iteration's merged recorded
duration for that name when present in the iteration's merged atomic
actions, and exactly 0 when absent; absence is handled by the dict
lookup default, never an error. -/
theorem C5_reprojection {α : Type} (merge : α → List (String × Rat))
    (atomic_names : List String) (idx : Nat) (itr : Iteration α) (i : Nat) :
    (buildIterRow merge (iterationsActions 1 atomic_names) idx itr).values[i]? =
      (atomic_names[i]?).map (fun name =>
        (toString (i + 1) ++ ". " ++ name,
         match (merge itr.atomic_actions).lookup name with
         | some d => d
         | none => 0)) := by
  rw [buildIterRow]
  rw [getElem?_map_list, iterationsActions_getElem atomic_names 1 i]
  cases hn : atomic_names[i]? with
  | none => rfl
  | some name =>
    simp only [Option.map_some', Option.some_inj]
    have harith : 1 + i = i + 1 := by omega
    rw [harith]
    cases hl : (merge itr.atomic_actions).lookup name <;> simp [hl, Option.getD]

/-- C6.  An iteration record lacking an `output` key is normalized by
`detailed` to the current shape: `{additive: [], complete: []}`, except
that a legacy `scenario_output` with non-empty data contributes exactly
one additive entry holding that data with title `"Scenario output"`,
empty description, and chart plugin `"StackedArea"`; the rendering loop
at lines 391-396 then consumes only this normalized value. -/
theorem C6_output_normalization {α : Type} (itr : Iteration α) (h : itr.output = none) :
    normalizeOutput itr =
      { additive :=
          match itr.scenario_output with
          | some so =>
            if so.data = [] then []
            else [{ data := so.data, title := "Scenario output",
                    description := "", chart_plugin := "StackedArea" }]
          | none => []
        complete := [] } := by
  unfold normalizeOutput
  rw [h]
  cases itr.scenario_output with
  | none => rfl
  | some so => by_cases hd : so.data = [] <;> simp [hd]

/-- C6 witness: a concrete legacy iteration is normalized to a single
`StackedArea` additive entry. -/
theorem C6_output_normalization_witness :
    legacyOutputIteration.output = none ∧
    normalizeOutput legacyOutputIteration =
      { additive := [{ data := [("errors_count", 0)], title := "Scenario output",
                       description := "", chart_plugin := "StackedArea" }],
        complete := [] } :=
  ⟨rfl, (C6_output_normalization legacyOutputIteration rfl).trans (by decide)⟩

/-- C7.  The per-iteration table built by `detailed` preserves input
order end-to-end: it has one row per iteration, the `i`-th row is built
from the `i`-th input iteration, and it carries the 1-based iteration
number `i + 1`; no reordering or sorting of iterations occurs. -/
theorem C7_iteration_order {α : Type} (merge : α → List (String × Rat))
    (actions : List (String × String)) (iterations : List (Iteration α)) (i : Nat) :
    (buildIterationRows merge actions iterations).length = iterations.length ∧
    (buildIterationRows merge actions iterations)[i]? =
      (iterations[i]?).map (fun itr => buildIterRow merge actions (i + 1) itr) ∧
    ((buildIterationRows merge actions iterations)[i]?).map IterRow.iteration =
      (iterations[i]?).map (fun _ => i + 1) := by
  refine ⟨buildIterationRowsAux_length merge actions 1 iterations, ?_, ?_⟩
  · rw [buildIterationRows, buildIterationRowsAux_getElem merge actions 1 iterations i]
    have harith : 1 + i = i + 1 := by omega
    rw [harith]
  · rw [buildIterationRows, buildIterationRowsAux_getElem merge actions 1 iterations i]
    have harith : 1 + i = i + 1 := by omega
    rw [harith]
    cases iterations[i]? <;> rfl

/-- C8 counterexample.  The claim says the full traceback is printed
only when a verbosity flag is set; but `_print_task_errors` has no
verbosity parameter at all (`print(*err_data, sep="\n")` prints both
components of every `_format_task_error` tuple), so with no flag set
anywhere the traceback still appears in the printed output. -/
theorem C8_traceback_counterexample :
    "Traceback (most recent call last): boom" ∈
      printTaskErrors "my_task"
        [formatTaskError ["ValueError", "invalid input",
                          "Traceback (most recent call last): boom"]] := by
  decide

/-- C8 (amended).  For every scenario result rendered by the table
renderer, the accumulated error-summary block prints each failed
iteration's `"type: message"` line and unconditionally also prints its
full traceback: no verbosity gating exists on this path. -/
theorem C8_error_block (task_id : String) (errs : List (List String)) (e : List String)
    (h : e ∈ errs) :
    (formatTaskError e).1 ∈ printTaskErrors task_id (errs.map formatTaskError) ∧
    (formatTaskError e).2 ∈ printTaskErrors task_id (errs.map formatTaskError) := by
  have hm : formatTaskError e ∈ errs.map formatTaskError := List.mem_map_of_mem _ h
  obtain ⟨h1, h2⟩ := mem_errorChain (errs.map formatTaskError) (formatTaskError e) hm
  unfold printTaskErrors
  exact ⟨List.mem_cons_of_mem _ h1, List.mem_cons_of_mem _ h2⟩

/-- C8 witness: both components of a concrete error tuple appear in the
printed block. -/
theorem C8_error_block_witness :
    (["ValueError", "bad request", "tb line"] ∈ [["ValueError", "bad request", "tb line"]]) ∧
    ((formatTaskError ["ValueError", "bad request", "tb line"]).1 ∈
        printTaskErrors "uuid" ([["ValueError", "bad request", "tb line"]].map formatTaskError) ∧
      (formatTaskError ["ValueError", "bad request", "tb line"]).2 ∈
        printTaskErrors "uuid" ([["ValueError", "bad request", "tb line"]].map formatTaskError)) :=
  ⟨by decide, C8_error_block "uuid" [["ValueError", "bad request", "tb line"]]
      ["ValueError", "bad request", "tb line"] (by decide)⟩

/-- C9.  `_format_task_error` never raises on an `error` sequence with
fewer than three elements: the components present are used in order
(element 0 as type, 1 as message, 2 as traceback) and each missing
component gets its fixed placeholder default (`"Unknown type"`,
`"Rally hasn't caught anything yet"`, `"No traceback available."`). -/
theorem C9_error_component_defaults (error : List String) (h : error.length < 3) :
    formatTaskError error = formatTaskErrorSpec error := by
  rcases error with _ | ⟨t, _ | ⟨m, _ | ⟨x, rest⟩⟩⟩
  · decide
  · show (t ++ ": " ++ "Rally hasn't caught anything yet" ++ "\n",
        "No traceback available.") =
      (t ++ ": Rally hasn't caught anything yet\n", "No traceback available.")
    exact congrArg (fun s => (s, "No traceback available.")) (by
      simp only [String.append_assoc]
      exact congrArg (fun s => t ++ s) (by decide))
  · rfl
  · simp only [List.length_cons] at h
    omega

/-- C9 witness: a single-element error list keeps its type and gets the
message and traceback placeholders. -/
theorem C9_error_component_defaults_witness :
    (["OnlyType"].length < 3) ∧
    formatTaskError ["OnlyType"] =
      ("OnlyType: Rally hasn't caught anything yet\n", "No traceback available.") :=
  ⟨by decide, (C9_error_component_defaults ["OnlyType"] (by decide)).trans (by decide)⟩

/-- C10.  In the JUnit branch of `report`, a result whose `sla` is not
a list gets a test case built from the `message` variable as left by
the most recent preceding result whose `sla` was a list (and hence that
predecessor's FAILURE/SUCCESS outcome); when no such predecessor
exists, `message` is still the initial empty value, giving SUCCESS with
empty message.  The result's own SLA content never determines its
outcome. -/
theorem C10_junit_message_reuse (pre post : List ScenarioResult) (r : ScenarioResult)
    (h : r.sla = SlaField.other) :
    (junitTests (pre ++ r :: post))[pre.length]? =
      some { name := r.key.name,
             duration := r.full_duration,
             outcome := if (recentListMsg pre).truthy then Outcome.failure
                        else Outcome.success,
             message := recentListMsg pre } := by
  rw [junitTests, junitTestsAux_append]
  rw [List.getElem?_append_right (le_of_eq (junitTestsAux_length JMessage.initial pre))]
  rw [junitTestsAux_length, Nat.sub_self]
  rw [junitTestsAux]
  simp only [List.getElem?_cons_zero]
  rw [foldl_junitStep_initial]
  simp [junitStep, h]

/-- C10 witness: a non-list-SLA result following a failed-SLA result
inherits the predecessor's FAILURE outcome and message. -/
theorem C10_junit_message_reuse_witness :
    slaNonListResult.sla = SlaField.other ∧
    (junitTests [slaFailedResult, slaNonListResult])[1]? =
      some { name := "ping_server", duration := 4,
             outcome := Outcome.failure, message := JMessage.str "too slow" } :=
  ⟨rfl, (C10_junit_message_reuse [slaFailedResult] [] slaNonListResult rfl).trans (by decide)⟩
